import Mathlib

/-!
Verification of the feed-normalization and cross-chain merge pipeline of the
budget-manager repository (scripts/fetch_all_chains.py, scripts/import_kaggle.py,
scripts/scrape_prices.py, scripts/scrape_simple.py).

The Python sources are shallowly embedded: per-record normalizers become pure
functions returning `Option` (reject = `none`); the places where the source can
raise a Python exception that is not handled per record are modelled in
`Except String` (the error payload names the Python exception class).
Prices are modelled as rationals (the feeds carry short decimal literals, and no
claim depends on binary floating-point artifacts).
-/

deriving instance DecidableEq for Except

namespace BudgetManager

/-! ### Python string primitives

`pyStrip` models `str.strip()` (restricted to the ASCII whitespace that occurs
in price feeds), `replaceCommaDot` models `.replace(',', '.')` for the
single-character pattern used by the sources, and `hasSub` models the Python
`in` substring test used by the categorizers. -/

def isPyWhitespace (c : Char) : Bool :=
  c == ' ' || c == '\t' || c == '\n' || c == '\r'

def pyStrip (s : String) : String :=
  (((s.toList.dropWhile isPyWhitespace).reverse.dropWhile isPyWhitespace).reverse).asString

def replaceCommaDot (s : String) : String :=
  (s.toList.map (fun c => if c = ',' then '.' else c)).asString

/-- Python `str.lower()` (ASCII case mapping; the identity on the Hebrew text
these scripts lower-case). -/
def pyLower (s : String) : String :=
  (s.toList.map Char.toLower).asString

def startsList : List Char → List Char → Bool
  | [], _ => true
  | _ :: _, [] => false
  | a :: as, b :: bs => a == b && startsList as bs

def hasSub : List Char → List Char → Bool
  | [], pat => pat.isEmpty
  | c :: rest, pat => startsList pat (c :: rest) || hasSub rest pat

/-! ### Python `float()` on decimal literals

`parseFloat?` models `float(s)` on the decimal literals found in price feeds:
optional sign, digits with at most one decimal point.  (Exponents, `inf`/`nan`
and digit underscores are out of the feeds' wire format and are not modelled.)
`pyFloat` exposes the `ValueError` raised on malformed input. -/

def digitsVal (ds : List Char) : Nat :=
  ds.foldl (fun a c => a * 10 + (c.toNat - 48)) 0

def parseUnsignedFloat (cs : List Char) : Option ℚ :=
  let whole := cs.takeWhile (fun c => c ≠ '.')
  match cs.dropWhile (fun c => c ≠ '.') with
  | [] =>
    if !whole.isEmpty && whole.all Char.isDigit then some ((digitsVal whole : ℚ)) else none
  | _ :: frac =>
    if (!whole.isEmpty || !frac.isEmpty) && whole.all Char.isDigit && frac.all Char.isDigit then
      some ((digitsVal whole : ℚ) + (digitsVal frac : ℚ) / (10 : ℚ) ^ frac.length)
    else none

def parseFloat? (s : String) : Option ℚ :=
  match (pyStrip s).toList with
  | '-' :: rest => (parseUnsignedFloat rest).map Neg.neg
  | '+' :: rest => parseUnsignedFloat rest
  | cs => parseUnsignedFloat cs

def pyFloat (s : String) : Except String ℚ :=
  match parseFloat? s with
  | some q => Except.ok q
  | none => Except.error "ValueError"

/-- The price-text parse shared verbatim by fetch_all_chains.py, scrape_simple.py
(`float(text.strip().replace(',', '.'))` on already-stripped text) and
import_kaggle.py (`float(price_str.replace(',', '.'))`). -/
def price_parse (s : String) : Except String ℚ :=
  pyFloat (replaceCommaDot s)

/-- Python `round(x, 2)` (round-half-to-even at two decimal places). -/
def round2 (q : ℚ) : ℚ :=
  let x := q * 100
  let f : ℤ := ⌊x⌋
  let r : ℚ := x - (f : ℚ)
  let n : ℤ :=
    if 1 / 2 < r then f + 1
    else if r < 1 / 2 then f
    else if f % 2 = 0 then f else f + 1
  (n : ℚ) / 100

/-! ### Raw feed records

An XML item (`xml.etree.ElementTree` element) is modelled by its list of child
elements: tag name paired with the element's text (`none` models a child whose
`.text` is `None`).  `rawText` models `item.find(tag)` followed by `.text`:
the first child with the given tag, flattened. -/

structure XmlItem where
  children : List (String × Option String)
deriving DecidableEq

def rawText (item : XmlItem) (tag : String) : Option String :=
  match item.children.find? (fun c => c.1 == tag) with
  | some c => c.2
  | none => none

/-- The alias loop of fetch_all_chains.parse_xml_file and scrape_simple.parse_xml:
`for tag in [...]: el = item.find(tag); if el is not None and el.text:
value = el.text.strip(); break`.  The loop breaks on the first alias whose raw
text is truthy (present and non-empty), and strips only afterwards. -/
def extractTag (item : XmlItem) : List String → Option String
  | [] => none
  | t :: rest =>
    match rawText item t with
    | some s => if s = "" then extractTag item rest else some (pyStrip s)
    | none => extractTag item rest

/-- scrape_prices.get_xml_text: same alias loop, returning `''` when no alias
has truthy text. -/
def get_xml_text (element : XmlItem) : List String → String
  | [] => ""
  | n :: rest =>
    match rawText element n with
    | some s => if s = "" then get_xml_text element rest else pyStrip s
    | none => get_xml_text element rest

/-- Modelled from the spec (§4.1): returns the first present value whose raw text
is non-empty, trimmed.  Used to state what the extraction loops actually compute. -/
def spec_extract_raw (item : XmlItem) (names : List String) : Option String :=
  ((names.filterMap (rawText item)).find? (fun s => !(s == ""))).map pyStrip

/-- Modelled from the spec (§4.1) as the claim reads it: returns the first present
value whose TRIMMED text is non-empty (a whitespace-only value would be skipped). -/
def spec_extract_trimmed (item : XmlItem) (names : List String) : Option String :=
  ((names.filterMap (rawText item)).find? (fun s => !(pyStrip s == ""))).map pyStrip

/-! ### CSV rows (import_kaggle.py)

A `csv.DictReader` row is a key/value list; `rowGet` models `row.get(k)`.
`firstTruthy` models a Python `or`-chain over such lookups with a final string
default: the first operand that is present and non-empty wins. -/

def rowGet (row : List (String × String)) (k : String) : Option String :=
  match row.find? (fun c => c.1 == k) with
  | some c => some c.2
  | none => none

def firstTruthy : List (Option String) → String → String
  | [], dflt => dflt
  | some s :: rest, dflt => if s = "" then firstTruthy rest dflt else s
  | none :: rest, dflt => firstTruthy rest dflt

/-! ### Chain tables and categorizers -/

/-- fetch_all_chains.CHAINS, restricted to the display names (the scraper enum
tokens are only consumed by the external retrieval collaborator). -/
def CHAINS_FA : List (String × String) :=
  [("shufersal", "שופרסל"), ("rami_levy", "רמי לוי"), ("victory", "ויקטורי"),
   ("yeinot_bitan", "יינות ביתן"), ("mega", "מגה"), ("osher_ad", "אושר עד"),
   ("hazi_hinam", "חצי חינם"), ("tiv_taam", "טיב טעם"), ("yohananof", "יוחננוף"),
   ("good_pharm", "גוד פארם"), ("freshmarket", "פרש מרקט"), ("keshet", "קשת טעמים"),
   ("bareket", "ברקת"), ("stop_market", "סטופ מרקט"), ("politzer", "פוליצר"),
   ("zol_vbegadol", "זול ובגדול"), ("super_yuda", "סופר יודא")]

/-- scrape_prices.CHAIN_NAMES. -/
def CHAIN_NAMES : List (String × String) :=
  [("shufersal", "שופרסל"), ("rami_levy", "רמי לוי"), ("mega", "מגה"),
   ("victory", "ויקטורי"), ("yeinot_bitan", "יינות ביתן"), ("tiv_taam", "טיב טעם"),
   ("osher_ad", "אושר עד"), ("hazi_hinam", "חצי חינם"), ("keshet_teamim", "קשת טעמים"),
   ("super_pharm", "סופר פארם"), ("politzer", "פוליצר"), ("freshmarket", "פרש מרקט"),
   ("stop_market", "סטופ מרקט"), ("bareket", "ברקת"), ("maayan_2000", "מעיין 2000"),
   ("zol_vbegadol", "זול ובגדול"), ("superyuda", "סופר יודא")]

/-- scrape_prices.CHAIN_TO_ENUM. -/
def CHAIN_TO_ENUM : List (String × String) :=
  [("shufersal", "SHUFERSAL"), ("rami_levy", "RAMI_LEVY"), ("victory", "VICTORY"),
   ("yeinot_bitan", "YAYNO_BITAN_AND_CARREFOUR"), ("tiv_taam", "TIV_TAAM"),
   ("osher_ad", "OSHER_AD"), ("hazi_hinam", "HAZI_HINAM"), ("keshet_teamim", "KESHET"),
   ("super_pharm", "SUPER_PHARM"), ("politzer", "POLITZER"),
   ("freshmarket", "FRESH_MARKET_AND_SUPER_DOSH"), ("stop_market", "STOP_MARKET"),
   ("bareket", "BAREKET"), ("maayan_2000", "MAAYAN_2000"),
   ("zol_vbegadol", "ZOL_VE_BEGADOL"), ("superyuda", "SUPER_YUDA")]

/-- import_kaggle.CHAIN_MAPPING: scraper folder key → (chain id, display name). -/
def CHAIN_MAPPING : List (String × (String × String)) :=
  [("SHUFERSAL", ("shufersal", "שופרסל")), ("RAMI_LEVY", ("rami_levy", "רמי לוי")),
   ("VICTORY", ("victory", "ויקטורי")), ("YAYNO_BITAN", ("yeinot_bitan", "יינות ביתן")),
   ("MEGA", ("mega", "מגה")), ("OSHER_AD", ("osher_ad", "אושר עד")),
   ("HAZI_HINAM", ("hazi_hinam", "חצי חינם")), ("TIV_TAAM", ("tiv_taam", "טיב טעם")),
   ("YOHANANOF", ("yohananof", "יוחננוף")), ("GOOD_PHARM", ("good_pharm", "גוד פארם")),
   ("SUPER_PHARM", ("super_pharm", "סופר פארם")), ("FRESHMARKET", ("freshmarket", "פרש מרקט")),
   ("KESHET", ("keshet", "קשת טעמים")), ("BAREKET", ("bareket", "ברקת")),
   ("STOP_MARKET", ("stop_market", "סטופ מרקט")), ("POLITZER", ("politzer", "פוליצר")),
   ("ZOL_VBEGADOL", ("zol_vbegadol", "זול ובגדול")), ("MAAYAN_2000", ("maayan_2000", "מעיין 2000")),
   ("SUPER_YUDA", ("super_yuda", "סופר יודא"))]

/-- Python `dict.get(k, default)`. -/
def pyDictGet (table : List (String × String)) (k : String) (dflt : String) : String :=
  match table.find? (fun c => c.1 == k) with
  | some c => c.2
  | none => dflt

def pyDictLookup (table : List (String × (String × String))) (k : String) :
    Option (String × String) :=
  match table.find? (fun c => c.1 == k) with
  | some c => some c.2
  | none => none

/-- The categorizer shared (up to keyword table) by the scripts: lower-case the
name, return the first category any of whose keywords is a substring, default
`"כללי"`.  (Python `.lower()` is the identity on the Hebrew keywords involved.) -/
def categorize_with (table : List (String × List String)) (name : String) : String :=
  let lower := pyLower name
  match table.find? (fun c => c.2.any (fun kw => hasSub lower.toList kw.toList)) with
  | some c => c.1
  | none => "כללי"

/-- fetch_all_chains.CATEGORIES. -/
def CATEGORIES_FA : List (String × List String) :=
  [("מוצרי חלב", ["חלב", "גבינה", "יוגורט", "שמנת", "קוטג", "לבן", "מעדן", "שוקו"]),
   ("לחם ומאפים", ["לחם", "פיתה", "לחמניה", "חלה", "באגט", "טוסט", "מאפה"]),
   ("ביצים", ["ביצים", "ביצה"]),
   ("בשר ועוף", ["עוף", "בקר", "טלה", "הודו", "נקניק", "שניצל", "המבורגר", "בשר"]),
   ("דגים", ["דג", "סלמון", "טונה", "אמנון", "פילה"]),
   ("פירות וירקות", ["תפוח", "בננה", "תפוז", "לימון", "עגבני", "מלפפון", "גזר", "בצל"]),
   ("משקאות", ["מים", "קולה", "ספרייט", "מיץ", "סודה", "בירה", "יין", "משקה"]),
   ("חטיפים", ["במבה", "ביסלי", "שוקולד", "עוגיה", "וופל", "סוכריה", "חטיף"]),
   ("ניקיון", ["סבון", "שמפו", "מרכך", "אבקה", "נוזל כלים", "אקונומיקה"]),
   ("פסטה ואורז", ["פסטה", "ספגטי", "אטריות", "אורז", "קוסקוס"]),
   ("שימורים", ["שימורים", "טונה", "תירס", "אפונה", "חומוס"]),
   ("קפה ותה", ["קפה", "נס", "אספרסו", "תה"])]

/-- import_kaggle.CATEGORY_KEYWORDS. -/
def CATEGORY_KEYWORDS_KG : List (String × List String) :=
  [("מוצרי חלב", ["חלב", "גבינה", "יוגורט", "שמנת", "קוטג", "לבן", "קפיר", "מעדן"]),
   ("לחם ומאפים", ["לחם", "פיתה", "לחמניה", "חלה", "באגט", "טוסט", "מאפה"]),
   ("ביצים", ["ביצים", "ביצה"]),
   ("בשר ועוף", ["עוף", "בקר", "טלה", "כבש", "הודו", "נקניק", "שניצל", "המבורגר", "סטייק", "כרעיים", "חזה"]),
   ("דגים", ["דג", "סלמון", "טונה", "אמנון", "דניס", "קרפיון"]),
   ("פירות וירקות", ["תפוח", "בננה", "תפוז", "לימון", "עגבני", "מלפפון", "גזר", "בצל", "תפוא", "אבוקדו", "ענב", "אבטיח", "מלון"]),
   ("משקאות", ["מים", "קולה", "ספרייט", "פנטה", "מיץ", "נקטר", "סודה", "בירה", "יין", "וודקה", "ויסקי"]),
   ("חטיפים וממתקים", ["במבה", "ביסלי", "שוקולד", "עוגיה", "וופל", "סוכריה", "גלידה", "קרקר"]),
   ("ניקיון", ["אקונומיקה", "סבון", "שמפו", "מרכך", "אבקה", "נוזל כלים", "מטליות", "נייר טואלט"]),
   ("פסטה ואורז", ["פסטה", "ספגטי", "אטריות", "אורז", "קוסקוס", "פתיתים", "בורגול"]),
   ("שימורים", ["שימורים", "טונה", "תירס", "אפונה", "חומוס", "שעועית", "עגבניות מרוסקות"]),
   ("קפה ותה", ["קפה", "נס", "אספרסו", "תה", "תה ירוק", "קפסולות"]),
   ("תינוקות", ["חיתולים", "מטרנה", "סימילאק", "מגבונים", "בקבוק"])]

/-- scrape_simple.CATEGORIES. -/
def CATEGORIES_SS : List (String × List String) :=
  [("מוצרי חלב", ["חלב", "גבינה", "יוגורט", "שמנת", "קוטג", "לבן"]),
   ("לחם ומאפים", ["לחם", "פיתה", "לחמניה", "חלה", "באגט"]),
   ("בשר ועוף", ["עוף", "בקר", "הודו", "שניצל", "בשר"]),
   ("משקאות", ["מים", "קולה", "מיץ", "בירה", "יין"]),
   ("חטיפים", ["במבה", "ביסלי", "שוקולד", "חטיף"])]

def categorize_fa (name : String) : String := categorize_with CATEGORIES_FA name

def categorize_product (name : String) : String := categorize_with CATEGORY_KEYWORDS_KG name

def categorize_ss (name : String) : String := categorize_with CATEGORIES_SS name

/-! ### Canonical per-chain product records -/

/-- The product dict built by fetch_all_chains.parse_xml_file,
import_kaggle.parse_price_csv and scrape_simple.parse_xml.  fetch_all_chains
and scrape_simple do not set `unitQty`/`unitMeasure` (their normalizers leave
them `""` here); scrape_simple's dict also has no manufacturer key (left `""`). -/
structure ProductPrice where
  barcode : String
  name : String
  price : ℚ
  chain : String
  chainName : String
  manufacturer : String
  unitQty : String
  unitMeasure : String
  category : String
deriving DecidableEq

/-- The product dict built by scrape_prices.parse_xml_files_directly. -/
structure SPProduct where
  barcode : String
  name : String
  price : ℚ
  chain : String
  chain_hebrew : String
  manufacturer : String
  unit_quantity : String
  unit_measure : String
deriving DecidableEq

/-! ### Record Normalizer of fetch_all_chains.parse_xml_file (per item) -/

def barcode_fa (item : XmlItem) : Option String :=
  extractTag item ["ItemCode", "Barcode", "barcode"]

def name_fa (item : XmlItem) : Option String :=
  extractTag item ["ItemName", "ItemNm", "ProductName", "name"]

def price_text_fa (item : XmlItem) : Option String :=
  extractTag item ["ItemPrice", "Price", "price"]

def manufacturer_fa (item : XmlItem) : Option String :=
  extractTag item ["ManufacturerName", "Manufacturer"]

/-- The price step with its exception channel: `try: price = float(...)
except ValueError: pass` leaves `price = None`, so the handler maps the
`ValueError` to `none` and nothing escapes. -/
def price_fa_try (item : XmlItem) : Except String (Option ℚ) :=
  match price_text_fa item with
  | none => Except.ok none
  | some s =>
    match price_parse s with
    | Except.ok q => Except.ok (some q)
    | Except.error _ => Except.ok none

def price_fa (item : XmlItem) : Option ℚ :=
  match price_fa_try item with
  | Except.ok r => r
  | Except.error _ => none

/-- fetch_all_chains.parse_xml_file, per item: accept iff
`barcode and name and price and price > 0` (Python truthiness), emitting the
product dict with the price rounded to 2 decimals. -/
def parse_item_fetch_all (chain_id chain_name : String) (item : XmlItem) :
    Option ProductPrice :=
  match barcode_fa item, name_fa item, price_fa item with
  | some b, some n, some pr =>
    if b ≠ "" ∧ n ≠ "" ∧ 0 < pr then
      some { barcode := b, name := n, price := round2 pr, chain := chain_id,
             chainName := chain_name, manufacturer := (manufacturer_fa item).getD "",
             unitQty := "", unitMeasure := "", category := categorize_fa n }
    else none
  | _, _, _ => none

/-! ### Record Normalizer of scrape_simple.parse_xml (per item) -/

def barcode_ss (item : XmlItem) : Option String :=
  extractTag item ["ItemCode", "Barcode", "barcode"]

def name_ss (item : XmlItem) : Option String :=
  extractTag item ["ItemName", "ItemNm", "ProductName"]

def price_text_ss (item : XmlItem) : Option String :=
  extractTag item ["ItemPrice", "Price", "price"]

def price_ss_try (item : XmlItem) : Except String (Option ℚ) :=
  match price_text_ss item with
  | none => Except.ok none
  | some s =>
    match price_parse s with
    | Except.ok q => Except.ok (some q)
    | Except.error _ => Except.ok none

def price_ss (item : XmlItem) : Option ℚ :=
  match price_ss_try item with
  | Except.ok r => r
  | Except.error _ => none

/-- scrape_simple.parse_xml, per item. -/
def parse_item_simple (chain_id chain_name : String) (item : XmlItem) :
    Option ProductPrice :=
  match barcode_ss item, name_ss item, price_ss item with
  | some b, some n, some pr =>
    if b ≠ "" ∧ n ≠ "" ∧ 0 < pr then
      some { barcode := b, name := n, price := round2 pr, chain := chain_id,
             chainName := chain_name, manufacturer := "", unitQty := "",
             unitMeasure := "", category := categorize_ss n }
    else none
  | _, _, _ => none

/-! ### Record Normalizer of import_kaggle.parse_price_csv (per row) -/

def barcode_kg (row : List (String × String)) : String :=
  pyStrip (firstTruthy
    [rowGet row "ItemCode", rowGet row "item_code", rowGet row "Barcode", rowGet row "barcode"] "")

def name_kg (row : List (String × String)) : String :=
  pyStrip (firstTruthy
    [rowGet row "ItemName", rowGet row "item_name", rowGet row "ProductName", rowGet row "product_name"] "")

def price_str_kg (row : List (String × String)) : String :=
  pyStrip (firstTruthy
    [rowGet row "ItemPrice", rowGet row "item_price", rowGet row "Price", rowGet row "price"] "0")

def manufacturer_kg (row : List (String × String)) : String :=
  pyStrip (firstTruthy
    [rowGet row "ManufacturerName", rowGet row "manufacturer_name", rowGet row "Manufacturer"] "")

def unit_qty_kg (row : List (String × String)) : String :=
  pyStrip (firstTruthy [rowGet row "UnitQty", rowGet row "unit_qty", rowGet row "Quantity"] "")

def unit_measure_kg (row : List (String × String)) : String :=
  pyStrip (firstTruthy [rowGet row "UnitOfMeasure", rowGet row "unit_of_measure", rowGet row "UOM"] "")

/-- `try: price = float(price_str.replace(',', '.')) except (ValueError, AttributeError): price = 0`. -/
def price_kg (row : List (String × String)) : ℚ :=
  match price_parse (price_str_kg row) with
  | Except.ok q => q
  | Except.error _ => 0

/-- `chain_info = CHAIN_MAPPING.get(chain_key, ...)` of import_kaggle.parse_price_csv. -/
def chain_info_kg (chain_key : String) : String × String :=
  match pyDictLookup CHAIN_MAPPING chain_key with
  | some info => info
  | none => (pyLower chain_key, chain_key)

/-- import_kaggle.parse_price_csv, per row: `if not barcode or not name or
price <= 0: continue`, otherwise emit the product dict. -/
def parse_row_kaggle (chain_key : String) (row : List (String × String)) :
    Option ProductPrice :=
  let info := chain_info_kg chain_key
  if barcode_kg row = "" ∨ name_kg row = "" ∨ price_kg row ≤ 0 then none
  else
    some { barcode := barcode_kg row, name := name_kg row,
           price := round2 (price_kg row), chain := info.1, chainName := info.2,
           manufacturer := manufacturer_kg row, unitQty := unit_qty_kg row,
           unitMeasure := unit_measure_kg row,
           category := categorize_product (name_kg row) }

/-! ### Record normalization of scrape_prices.parse_xml_files_directly (per item)

Here the price is `float(get_xml_text(item, [...]) or 0)`: no comma
normalization and no per-record handler, so the `ValueError` of a malformed
price text propagates (it is only caught by the per-file `except` around the
whole item loop).  The `Except` result models that propagation. -/

def barcode_sp (item : XmlItem) : String :=
  get_xml_text item ["ItemCode", "Barcode", "barcode"]

def name_sp (item : XmlItem) : String :=
  get_xml_text item ["ItemName", "ProductName", "name", "ItemNm"]

def price_text_sp (item : XmlItem) : String :=
  get_xml_text item ["ItemPrice", "Price", "price"]

def parse_item_scrape_prices (chain_name : String) (item : XmlItem) :
    Except String (Option SPProduct) := do
  let price : ℚ ←
    if price_text_sp item = "" then Except.ok (0 : ℚ) else pyFloat (price_text_sp item)
  Except.ok (if barcode_sp item ≠ "" ∧ name_sp item ≠ "" ∧ 0 < price then
    some { barcode := barcode_sp item, name := name_sp item, price := price,
           chain := chain_name,
           chain_hebrew := pyDictGet CHAIN_NAMES (pyLower chain_name) chain_name,
           manufacturer := get_xml_text item ["ManufacturerName", "Manufacturer"],
           unit_quantity := get_xml_text item ["UnitQty", "Quantity"],
           unit_measure := get_xml_text item ["UnitOfMeasure", "UOM"] }
  else none)

/-! ### Merged products and the cross-chain merge

Python dicts preserve insertion order, so the merge map is an association list
appended at the end on first sighting of a barcode. -/

structure PriceEntry where
  chain : String
  chainName : String
  price : ℚ
deriving DecidableEq

/-- The merged-product dict.  fetch_all_chains sets barcode/name/manufacturer/
category/prices only; scrape_simple sets barcode/name/category/prices; the
fields a given merge does not set stay at their seed defaults (`""`, `none`). -/
structure MergedProduct where
  barcode : String
  name : String
  manufacturer : String
  category : String
  unitQty : String
  unitMeasure : String
  image : Option String
  prices : List PriceEntry
deriving DecidableEq

/-- The OpenFoodFacts image URL: present only when `len(barcode) >= 12`,
built from the slices `barcode[:3]`, `barcode[3:6]`, `barcode[6:9]`,
`barcode[9:]`.  Identical f-string in fetch_all_chains.update_mongodb,
import_kaggle.merge_products_by_barcode and scrape_simple.update_mongodb. -/
def strSlice (s : String) (a b : Nat) : String :=
  ((s.toList.drop a).take (b - a)).asString

def strSliceFrom (s : String) (a : Nat) : String :=
  (s.toList.drop a).asString

def image_url (barcode : String) : Option String :=
  if 12 ≤ barcode.length then
    some ("https://images.openfoodfacts.org/images/products/"
      ++ strSlice barcode 0 3 ++ "/" ++ strSlice barcode 3 6 ++ "/"
      ++ strSlice barcode 6 9 ++ "/" ++ strSliceFrom barcode 9
      ++ "/front_he.400.jpg")
  else none

def alistLookup : List (String × MergedProduct) → String → Option MergedProduct
  | [], _ => none
  | e :: m, k => if e.1 = k then some e.2 else alistLookup m k

def alistUpdate (m : List (String × MergedProduct)) (k : String)
    (f : MergedProduct → MergedProduct) : List (String × MergedProduct) :=
  m.map (fun e => if e.1 = k then (e.1, f e.2) else e)

def priceEntryOf (p : ProductPrice) : PriceEntry :=
  { chain := p.chain, chainName := p.chainName, price := p.price }

/-- fetch_all_chains.main / scrape_simple.update_mongodb: append the price only
if no existing entry already has this record's chain. -/
def addPriceIfAbsent (entry : PriceEntry) (mp : MergedProduct) : MergedProduct :=
  if mp.prices.any (fun pr => pr.chain == entry.chain) then mp
  else { mp with prices := mp.prices ++ [entry] }

/-- import_kaggle.merge_products_by_barcode: the price is appended with no
per-chain check. -/
def addPriceAlways (entry : PriceEntry) (mp : MergedProduct) : MergedProduct :=
  { mp with prices := mp.prices ++ [entry] }

/-- The merged entry created on first sighting of a barcode by fetch_all_chains.main. -/
def seedFetchAll (p : ProductPrice) : MergedProduct :=
  { barcode := p.barcode, name := p.name, manufacturer := p.manufacturer,
    category := p.category, unitQty := "", unitMeasure := "", image := none,
    prices := [] }

/-- The merged entry created on first sighting by import_kaggle.merge_products_by_barcode. -/
def seedKaggle (p : ProductPrice) : MergedProduct :=
  { barcode := p.barcode, name := p.name, manufacturer := p.manufacturer,
    category := p.category, unitQty := p.unitQty, unitMeasure := p.unitMeasure,
    image := image_url p.barcode, prices := [] }

/-- The merged entry created on first sighting by scrape_simple.update_mongodb. -/
def seedSimple (p : ProductPrice) : MergedProduct :=
  { barcode := p.barcode, name := p.name, manufacturer := "",
    category := p.category, unitQty := "", unitMeasure := "", image := none,
    prices := [] }

/-- One record of the merge loop: create the entry if the barcode is unseen,
then add the price entry with the given policy. -/
def mergeStep (upd : PriceEntry → MergedProduct → MergedProduct)
    (seed : ProductPrice → MergedProduct)
    (m : List (String × MergedProduct)) (p : ProductPrice) :
    List (String × MergedProduct) :=
  let m1 := match alistLookup m p.barcode with
    | some _ => m
    | none => m ++ [(p.barcode, seed p)]
  alistUpdate m1 p.barcode (upd (priceEntryOf p))

/-- The merge loop of fetch_all_chains.main (lines 307-325). -/
def mergeFetchAll (ps : List ProductPrice) : List (String × MergedProduct) :=
  ps.foldl (mergeStep addPriceIfAbsent seedFetchAll) []

/-- The merge loop of scrape_simple.update_mongodb (lines 164-180). -/
def mergeSimple (ps : List ProductPrice) : List (String × MergedProduct) :=
  ps.foldl (mergeStep addPriceIfAbsent seedSimple) []

/-- The merge map of import_kaggle.merge_products_by_barcode before the final
sort (the two nested loops over `chain_products.items()`). -/
def merge_products_map (ps : List ProductPrice) : List (String × MergedProduct) :=
  ps.foldl (mergeStep addPriceAlways seedKaggle) []

/-- import_kaggle.merge_products_by_barcode: merge all chains' records in dict
order, then sort the values by descending number of price entries (stable). -/
def merge_products_by_barcode (chain_products : List (String × List ProductPrice)) :
    List MergedProduct :=
  ((merge_products_map ((chain_products.map (fun c => c.2)).flatten)).map (fun e => e.2)).insertionSort
    (fun a b => b.prices.length ≤ a.prices.length)

/-! ### Result builders and persistence projection -/

structure FetchAllResult where
  success : Bool
  totalProducts : Nat
  chainsSummary : List (String × Nat)
  products : List MergedProduct
deriving DecidableEq

/-- The batch result assembled by fetch_all_chains.main (lines 330-339) from the
per-chain fetch outputs (fetching itself is external I/O; its per-chain product
lists are the input here, a failed chain contributing `[]`).  The `success`
field is the literal `True` of the source; `fetchedAt` is wall-clock I/O and is
not modelled. -/
def main_result_fetch_all (chain_products : List (String × List ProductPrice)) :
    FetchAllResult :=
  let merged := mergeFetchAll ((chain_products.map (fun c => c.2)).flatten)
  { success := true
    totalProducts := merged.length
    chainsSummary := chain_products.map (fun c => (c.1, c.2.length))
    products := merged.map (fun e => e.2) }

structure ChainScrapeResult where
  chain : String
  chain_hebrew : String
  success : Bool
  products_count : Option Nat
  products : List SPProduct
  error : Option String
deriving DecidableEq

/-- scrape_prices.scrape_chain: unknown chain id gives a failure dict; any
exception from the retrieval collaborator or the file parsing (modelled as the
`Except` input) is caught and gives a failure dict; otherwise a success dict.
The import-error branch is subsumed by the failure outcome. -/
def scrape_chain (chain_name : String) (outcome : Except String (List SPProduct)) :
    ChainScrapeResult :=
  let hebrew := pyDictGet CHAIN_NAMES (pyLower chain_name) chain_name
  match (CHAIN_TO_ENUM.find? (fun c => c.1 == pyLower chain_name)) with
  | none =>
    { chain := chain_name, chain_hebrew := hebrew, success := false,
      products_count := none, products := [],
      error := some ("Unknown chain: " ++ chain_name) }
  | some _ =>
    match outcome with
    | Except.error e =>
      { chain := chain_name, chain_hebrew := hebrew, success := false,
        products_count := none, products := [], error := some e }
    | Except.ok ps =>
      { chain := chain_name, chain_hebrew := hebrew, success := true,
        products_count := some ps.length, products := ps, error := none }

structure MultiScrapeResult where
  success : Bool
  chains : List (String × ChainScrapeResult)
  total_products : Nat
deriving DecidableEq

/-- scrape_prices.scrape_multiple_chains (lines 296-320): `success` starts
`True` and is cleared whenever a chain result is not successful;
`total_products` sums `products_count` with default 0.  (`scraped_at` is
wall-clock I/O and is not modelled.) -/
def scrape_multiple_chains (inputs : List (String × Except String (List SPProduct))) :
    MultiScrapeResult :=
  let results := inputs.map (fun c => (c.1, scrape_chain c.1 c.2))
  { success := results.all (fun r => r.2.success)
    chains := results
    total_products := (results.map (fun r => r.2.products_count.getD 0)).sum }

/-- Python `min(prices, key=lambda p: p['price'])` (first minimum wins), with
the `{'price': 0, 'chainName': ''}` default of the empty case used by
fetch_all_chains.update_mongodb and scrape_simple.update_mongodb. -/
def cheapest_entry (prices : List PriceEntry) : PriceEntry :=
  match prices with
  | [] => { chain := "", chainName := "", price := 0 }
  | h :: t => t.foldl (fun best q => if q.price < best.price then q else best) h

/-- The per-product document written by update_mongodb (fetch_all_chains lines
376-403; scrape_simple lines 191-210 computes the same cheapest/image fields,
without a manufacturer key).  `lastUpdated` is wall-clock I/O and is not
modelled. -/
structure PersistedDoc where
  name : String
  manufacturer : String
  category : String
  image : Option String
  prices : List PriceEntry
  cheapestPrice : ℚ
  cheapestChain : String
  dataSource : String
deriving DecidableEq

def persist_doc (mp : MergedProduct) : PersistedDoc :=
  { name := mp.name, manufacturer := mp.manufacturer, category := mp.category,
    image := image_url mp.barcode, prices := mp.prices,
    cheapestPrice := (cheapest_entry mp.prices).price,
    cheapestChain := (cheapest_entry mp.prices).chainName,
    dataSource := "python-scraper" }

/-! ### Lemmas about the merge map -/

theorem alistLookup_append (m₁ m₂ : List (String × MergedProduct)) (k : String) :
    alistLookup (m₁ ++ m₂) k =
      match alistLookup m₁ k with
      | some v => some v
      | none => alistLookup m₂ k := by
  induction m₁ with
  | nil => simp [alistLookup]
  | cons e m₁ ih =>
    by_cases h : e.1 = k <;> simp [alistLookup, h, ih]

theorem alistLookup_update (m : List (String × MergedProduct)) (k : String)
    (f : MergedProduct → MergedProduct) (b : String) :
    alistLookup (alistUpdate m k f) b =
      if b = k then (alistLookup m b).map f else alistLookup m b := by
  induction m with
  | nil => simp [alistUpdate, alistLookup]
  | cons e m ih =>
    obtain ⟨ek, ev⟩ := e
    have ih' : alistLookup (m.map (fun e => if e.1 = k then (e.1, f e.2) else e)) b =
        if b = k then (alistLookup m b).map f else alistLookup m b := by
      simpa [alistUpdate] using ih
    by_cases h1 : ek = k
    · subst h1
      by_cases h2 : ek = b
      · subst h2
        simp [alistUpdate, alistLookup]
      · simp [alistUpdate, alistLookup, h2, Ne.symm h2, ih']
    · by_cases h2 : ek = b
      · subst h2
        simp [alistUpdate, alistLookup, h1, Ne.symm h1]
      · simp [alistUpdate, alistLookup, h1, h2, ih']

theorem mergeStep_lookup_some (upd : PriceEntry → MergedProduct → MergedProduct)
    (seed : ProductPrice → MergedProduct) (m : List (String × MergedProduct))
    (p : ProductPrice) (b : String) (mp : MergedProduct)
    (h : alistLookup m b = some mp) :
    alistLookup (mergeStep upd seed m p) b =
      some (if p.barcode = b then upd (priceEntryOf p) mp else mp) := by
  unfold mergeStep
  cases hpb : alistLookup m p.barcode with
  | some v =>
    by_cases hb : b = p.barcode
    · subst hb
      simp [alistLookup_update, h]
    · simp [alistLookup_update, h, hb, Ne.symm hb]
  | none =>
    by_cases hb : b = p.barcode
    · subst hb
      simp [alistLookup_update, alistLookup_append, h]
    · simp [alistLookup_update, alistLookup_append, h, hb, Ne.symm hb]

theorem mergeStep_lookup_none (upd : PriceEntry → MergedProduct → MergedProduct)
    (seed : ProductPrice → MergedProduct) (m : List (String × MergedProduct))
    (p : ProductPrice) (b : String) (h : alistLookup m b = none) :
    alistLookup (mergeStep upd seed m p) b =
      if p.barcode = b then some (upd (priceEntryOf p) (seed p)) else none := by
  unfold mergeStep
  cases hpb : alistLookup m p.barcode with
  | some v =>
    by_cases hb : b = p.barcode
    · subst hb
      rw [h] at hpb
      exact Option.noConfusion hpb
    · simp [alistLookup_update, h, hb, Ne.symm hb]
  | none =>
    by_cases hb : b = p.barcode
    · subst hb
      simp [alistLookup_update, alistLookup_append, h, alistLookup]
    · simp [alistLookup_update, alistLookup_append, h, hb, Ne.symm hb, alistLookup]

/-- Ancillary metadata of a merged entry: the fields the claims call name,
manufacturer and category. -/
def ancilOf (mp : MergedProduct) : String × String × String :=
  (mp.name, mp.manufacturer, mp.category)

theorem mergeFold_lookup_some (upd : PriceEntry → MergedProduct → MergedProduct)
    (seed : ProductPrice → MergedProduct)
    (hanc : ∀ e mp, ancilOf (upd e mp) = ancilOf mp) :
    ∀ (ps : List ProductPrice) (m : List (String × MergedProduct)) (b : String)
      (mp : MergedProduct), alistLookup m b = some mp →
      ∃ mp', alistLookup (ps.foldl (mergeStep upd seed) m) b = some mp' ∧
        ancilOf mp' = ancilOf mp := by
  intro ps
  induction ps with
  | nil => exact fun m b mp h => ⟨mp, h, rfl⟩
  | cons p ps ih =>
    intro m b mp h
    have hstep := mergeStep_lookup_some upd seed m p b mp h
    obtain ⟨mp', h1, h2⟩ := ih (mergeStep upd seed m p) b _ hstep
    refine ⟨mp', h1, h2.trans ?_⟩
    by_cases hb : p.barcode = b
    · simp [hb, hanc]
    · simp [hb]

theorem mergeFold_lookup_none (upd : PriceEntry → MergedProduct → MergedProduct)
    (seed : ProductPrice → MergedProduct) :
    ∀ (ps : List ProductPrice) (m : List (String × MergedProduct)) (b : String),
      alistLookup m b = none → ps.find? (fun q => q.barcode == b) = none →
      alistLookup (ps.foldl (mergeStep upd seed) m) b = none := by
  intro ps
  induction ps with
  | nil => exact fun m b h _ => h
  | cons p ps ih =>
    intro m b h hfind
    rw [List.find?_cons] at hfind
    cases hqb : (p.barcode == b) with
    | true => rw [hqb] at hfind; exact Option.noConfusion hfind
    | false =>
      rw [hqb] at hfind
      have hne : p.barcode ≠ b := by
        intro hh
        rw [hh] at hqb
        simp at hqb
      have hstep := mergeStep_lookup_none upd seed m p b h
      rw [if_neg hne] at hstep
      exact ih (mergeStep upd seed m p) b hstep hfind

theorem mergeFold_lookup_first (upd : PriceEntry → MergedProduct → MergedProduct)
    (seed : ProductPrice → MergedProduct)
    (hanc : ∀ e mp, ancilOf (upd e mp) = ancilOf mp) :
    ∀ (ps : List ProductPrice) (m : List (String × MergedProduct)) (b : String)
      (p : ProductPrice), alistLookup m b = none →
      ps.find? (fun q => q.barcode == b) = some p →
      ∃ mp', alistLookup (ps.foldl (mergeStep upd seed) m) b = some mp' ∧
        ancilOf mp' = ancilOf (seed p) := by
  intro ps
  induction ps with
  | nil => intro m b p _ hfind; exact Option.noConfusion hfind
  | cons q ps ih =>
    intro m b p h hfind
    rw [List.find?_cons] at hfind
    cases hqb : (q.barcode == b) with
    | true =>
      rw [hqb] at hfind
      have hq : q = p := Option.some.inj hfind
      subst hq
      have hb : q.barcode = b := by simpa using hqb
      have hstep := mergeStep_lookup_none upd seed m q b h
      rw [if_pos hb] at hstep
      obtain ⟨mp', h1, h2⟩ :=
        mergeFold_lookup_some upd seed hanc ps (mergeStep upd seed m q) b _ hstep
      exact ⟨mp', h1, h2.trans (hanc _ _)⟩
    | false =>
      rw [hqb] at hfind
      have hne : q.barcode ≠ b := by
        intro hh
        rw [hh] at hqb
        simp at hqb
      have hstep := mergeStep_lookup_none upd seed m q b h
      rw [if_neg hne] at hstep
      exact ih (mergeStep upd seed m q) b p hstep hfind

theorem mergeStep_mem (upd : PriceEntry → MergedProduct → MergedProduct)
    (seed : ProductPrice → MergedProduct) (m : List (String × MergedProduct))
    (p : ProductPrice) (e : String × MergedProduct)
    (he : e ∈ mergeStep upd seed m p) :
    (∃ e₀, e₀ ∈ m ∧ (e = e₀ ∨ e = (e₀.1, upd (priceEntryOf p) e₀.2))) ∨
      e = (p.barcode, upd (priceEntryOf p) (seed p)) := by
  unfold mergeStep at he
  cases hpb : alistLookup m p.barcode with
  | some v =>
    rw [hpb] at he
    unfold alistUpdate at he
    obtain ⟨a, ham, hga⟩ := List.mem_map.mp he
    by_cases ha : a.1 = p.barcode
    · left
      exact ⟨a, ham, Or.inr (by rw [← hga, if_pos ha])⟩
    · left
      exact ⟨a, ham, Or.inl (by rw [← hga, if_neg ha])⟩
  | none =>
    rw [hpb] at he
    unfold alistUpdate at he
    obtain ⟨a, ham, hga⟩ := List.mem_map.mp he
    rcases List.mem_append.mp ham with ham' | ham'
    · by_cases ha : a.1 = p.barcode
      · left
        exact ⟨a, ham', Or.inr (by rw [← hga, if_pos ha])⟩
      · left
        exact ⟨a, ham', Or.inl (by rw [← hga, if_neg ha])⟩
    · right
      have ha : a = (p.barcode, seed p) := by simpa using ham'
      subst ha
      rw [← hga, if_pos rfl]

theorem foldl_min_mem (t : List PriceEntry) :
    ∀ h : PriceEntry,
      t.foldl (fun best q => if q.price < best.price then q else best) h ∈ h :: t := by
  induction t with
  | nil => intro h; exact List.mem_singleton.mpr rfl
  | cons a t ih =>
    intro h
    rcases List.mem_cons.mp (ih (if a.price < h.price then a else h)) with heq | hmem
    · rw [List.foldl_cons, heq]
      by_cases hc : a.price < h.price
      · rw [if_pos hc]
        exact List.mem_cons_of_mem h (List.mem_cons_self a t)
      · rw [if_neg hc]
        exact List.mem_cons_self h (a :: t)
    · exact List.mem_cons_of_mem h (List.mem_cons_of_mem a hmem)

theorem foldl_min_le (t : List PriceEntry) :
    ∀ (h q : PriceEntry), q ∈ h :: t →
      (t.foldl (fun best q => if q.price < best.price then q else best) h).price ≤ q.price := by
  induction t with
  | nil =>
    intro h q hq
    rw [List.mem_singleton.mp hq]
    simp
  | cons a t ih =>
    intro h q hq
    have hstep : (if a.price < h.price then a else h).price ≤ h.price ∧
        (if a.price < h.price then a else h).price ≤ a.price := by
      by_cases hc : a.price < h.price
      · rw [if_pos hc]
        exact ⟨hc.le, le_refl _⟩
      · rw [if_neg hc]
        exact ⟨le_refl _, le_of_not_lt hc⟩
    rw [List.foldl_cons]
    rcases List.mem_cons.mp hq with heq | hq'
    · subst heq
      exact le_trans
        (ih (if a.price < q.price then a else q) _ (List.mem_cons_self _ t)) hstep.1
    · rcases List.mem_cons.mp hq' with heq | hq''
      · subst heq
        exact le_trans
          (ih (if q.price < h.price then q else h) _ (List.mem_cons_self _ t)) hstep.2
      · exact ih _ q (List.mem_cons_of_mem _ hq'')

theorem cheapest_entry_mem (prices : List PriceEntry) (h : prices ≠ []) :
    cheapest_entry prices ∈ prices := by
  cases prices with
  | nil => exact absurd rfl h
  | cons a t => exact foldl_min_mem t a

theorem cheapest_entry_le (prices : List PriceEntry) (q : PriceEntry) (hq : q ∈ prices) :
    (cheapest_entry prices).price ≤ q.price := by
  cases prices with
  | nil => exact absurd hq (List.not_mem_nil q)
  | cons a t => exact foldl_min_le t a q hq

theorem merge_fold_invariant (upd : PriceEntry → MergedProduct → MergedProduct)
    (seed : ProductPrice → MergedProduct) (P : MergedProduct → Prop)
    (hupd : ∀ e mp, P mp → P (upd e mp))
    (hseed : ∀ p : ProductPrice, P (upd (priceEntryOf p) (seed p))) :
    ∀ (ps : List ProductPrice) (m : List (String × MergedProduct)),
      (∀ kv ∈ m, P kv.2) → ∀ kv ∈ ps.foldl (mergeStep upd seed) m, P kv.2 := by
  intro ps
  induction ps with
  | nil => exact fun m hm => hm
  | cons p ps ih =>
    intro m hm
    apply ih (mergeStep upd seed m p)
    intro kv hkv
    rcases mergeStep_mem upd seed m p kv hkv with ⟨e₀, he₀, heq | heq⟩ | heq
    · exact heq ▸ hm e₀ he₀
    · rw [heq]
      exact hupd _ _ (hm e₀ he₀)
    · rw [heq]
      exact hseed p

theorem ancil_addPriceIfAbsent (e : PriceEntry) (mp : MergedProduct) :
    ancilOf (addPriceIfAbsent e mp) = ancilOf mp := by
  unfold addPriceIfAbsent
  split <;> rfl

theorem ancil_addPriceAlways (e : PriceEntry) (mp : MergedProduct) :
    ancilOf (addPriceAlways e mp) = ancilOf mp := rfl

theorem nodup_addPriceIfAbsent (e : PriceEntry) (mp : MergedProduct)
    (h : (mp.prices.map PriceEntry.chain).Nodup) :
    ((addPriceIfAbsent e mp).prices.map PriceEntry.chain).Nodup := by
  unfold addPriceIfAbsent
  by_cases hc : mp.prices.any (fun pr => pr.chain == e.chain)
  · rw [if_pos hc]
    exact h
  · rw [if_neg hc]
    show ((mp.prices ++ [e]).map PriceEntry.chain).Nodup
    rw [List.map_append]
    have hnotin : e.chain ∉ mp.prices.map PriceEntry.chain := by
      intro hmem
      obtain ⟨pr, hpr, heq⟩ := List.mem_map.mp hmem
      exact hc (List.any_eq_true.mpr ⟨pr, hpr, by simp [heq]⟩)
    refine List.Nodup.append h (List.nodup_singleton _) ?_
    intro x hx hy
    rw [List.mem_singleton.mp hy] at hx
    exact hnotin hx

theorem nodup_seed_addPriceIfAbsent (e : PriceEntry) (mp : MergedProduct)
    (h : mp.prices = []) :
    ((addPriceIfAbsent e mp).prices.map PriceEntry.chain).Nodup := by
  unfold addPriceIfAbsent
  rw [h]
  simp

theorem prices_ne_nil_addPriceIfAbsent (e : PriceEntry) (mp : MergedProduct)
    (h : mp.prices ≠ []) : (addPriceIfAbsent e mp).prices ≠ [] := by
  unfold addPriceIfAbsent
  split
  · exact h
  · simp

theorem prices_ne_nil_addPriceAlways (e : PriceEntry) (mp : MergedProduct)
    (_h : mp.prices ≠ []) : (addPriceAlways e mp).prices ≠ [] := by
  unfold addPriceAlways
  simp

theorem prices_ne_nil_seed (upd : PriceEntry → MergedProduct → MergedProduct)
    (e : PriceEntry) (mp : MergedProduct) (h : mp.prices = [])
    (hupd : upd = addPriceIfAbsent ∨ upd = addPriceAlways) :
    (upd e mp).prices ≠ [] := by
  rcases hupd with h' | h' <;> subst h'
  · unfold addPriceIfAbsent
    rw [h]
    simp
  · unfold addPriceAlways
    rw [h]
    simp

/-! ### Claim theorems -/

/-- Concrete records used to exercise the merge theorems: two chains, same
barcode, differing names and prices (the end-to-end example of spec §8). -/
def recMilkA : ProductPrice :=
  { barcode := "111", name := "Milk", price := 5, chain := "a", chainName := "A",
    manufacturer := "M1", unitQty := "", unitMeasure := "", category := "c1" }

def recMilkB : ProductPrice :=
  { barcode := "111", name := "Milk2", price := 4.5, chain := "b", chainName := "B",
    manufacturer := "M2", unitQty := "", unitMeasure := "", category := "c2" }

/-- The merged entry produced from `recMilkA` then `recMilkB`. -/
def mergedMilk : MergedProduct :=
  { barcode := "111", name := "Milk", manufacturer := "M1", category := "c1",
    unitQty := "", unitMeasure := "", image := none,
    prices := [{ chain := "a", chainName := "A", price := 5 },
               { chain := "b", chainName := "B", price := 4.5 }] }

/-- C1 (amended): in the merges of fetch_all_chains.main and
scrape_simple.update_mongodb, every merged entry's price list has at most one
entry per distinct chain id: the chain ids are pairwise distinct, so the length
of `prices` equals the number of distinct chain ids among its entries.  (The
claim as stated is false for import_kaggle.merge_products_by_barcode, which
appends a price entry unconditionally — see the counterexample.) -/
theorem c1_merge_at_most_one_price_per_chain :
    (∀ (ps : List ProductPrice) (kv : String × MergedProduct), kv ∈ mergeFetchAll ps →
      (kv.2.prices.map PriceEntry.chain).Nodup ∧
        (kv.2.prices.map PriceEntry.chain).dedup.length = kv.2.prices.length) ∧
    (∀ (ps : List ProductPrice) (kv : String × MergedProduct), kv ∈ mergeSimple ps →
      (kv.2.prices.map PriceEntry.chain).Nodup ∧
        (kv.2.prices.map PriceEntry.chain).dedup.length = kv.2.prices.length) := by
  have base : ∀ kv ∈ ([] : List (String × MergedProduct)),
      (kv.2.prices.map PriceEntry.chain).Nodup := by
    intro kv h
    exact absurd h (List.not_mem_nil kv)
  constructor
  · intro ps kv hkv
    have hnd := merge_fold_invariant addPriceIfAbsent seedFetchAll
      (fun mp => (mp.prices.map PriceEntry.chain).Nodup)
      nodup_addPriceIfAbsent (fun p => nodup_seed_addPriceIfAbsent _ _ rfl)
      ps [] base kv hkv
    exact ⟨hnd, by rw [List.dedup_eq_self.mpr hnd, List.length_map]⟩
  · intro ps kv hkv
    have hnd := merge_fold_invariant addPriceIfAbsent seedSimple
      (fun mp => (mp.prices.map PriceEntry.chain).Nodup)
      nodup_addPriceIfAbsent (fun p => nodup_seed_addPriceIfAbsent _ _ rfl)
      ps [] base kv hkv
    exact ⟨hnd, by rw [List.dedup_eq_self.mpr hnd, List.length_map]⟩

/-- C1 witness: the two-chain example merges to a single entry whose price list
carries one entry per chain. -/
theorem c1_merge_at_most_one_price_per_chain_witness :
    ("111", mergedMilk) ∈ mergeFetchAll [recMilkA, recMilkB] ∧
      ((mergedMilk.prices.map PriceEntry.chain).Nodup ∧
        (mergedMilk.prices.map PriceEntry.chain).dedup.length = mergedMilk.prices.length) := by
  have heq : mergeFetchAll [recMilkA, recMilkB] = [("111", mergedMilk)] := by
    with_unfolding_all rfl
  have hmem : ("111", mergedMilk) ∈ mergeFetchAll [recMilkA, recMilkB] := by
    rw [heq]
    exact List.mem_singleton.mpr rfl
  exact ⟨hmem, c1_merge_at_most_one_price_per_chain.1 [recMilkA, recMilkB] _ hmem⟩

/-- Two observations of the same barcode from the SAME chain, as
import_kaggle.parse_price_csv can produce them (e.g. duplicate rows, or two
price files of one chain concatenated into that chain's list). -/
def recDup1 : ProductPrice :=
  { barcode := "111", name := "Milk", price := 5, chain := "shufersal",
    chainName := "שופרסל", manufacturer := "", unitQty := "", unitMeasure := "",
    category := "c" }

def recDup2 : ProductPrice :=
  { barcode := "111", name := "Milk", price := 6, chain := "shufersal",
    chainName := "שופרסל", manufacturer := "", unitQty := "", unitMeasure := "",
    category := "c" }

def mergedDup : MergedProduct :=
  { barcode := "111", name := "Milk", manufacturer := "", category := "c",
    unitQty := "", unitMeasure := "", image := none,
    prices := [{ chain := "shufersal", chainName := "שופרסל", price := 5 },
               { chain := "shufersal", chainName := "שופרסל", price := 6 }] }

/-- C1 counterexample: import_kaggle.merge_products_by_barcode keeps BOTH
observations of chain `shufersal` for barcode `111` — the later observation for
a chain already present is appended, not dropped, so `len(prices) = 2` while
there is only 1 distinct chain id. -/
theorem c1_counterexample_kaggle_duplicate_chain :
    merge_products_by_barcode [("shufersal", [recDup1, recDup2])] = [mergedDup] ∧
      mergedDup.prices.length = 2 ∧
      (mergedDup.prices.map PriceEntry.chain).dedup.length = 1 ∧
      ¬ (mergedDup.prices.map PriceEntry.chain).Nodup := by
  refine ⟨by with_unfolding_all rfl, rfl, by decide, by decide⟩

/-- C10: every merged product of each of the three merges has at least one
price entry (the seed's empty price list is filled in the very step that
creates it), so the cheapest projection's empty-price-list default is
unreachable on merge output: the cheapest entry is a genuine member. -/
theorem c10_merge_output_prices_nonempty :
    (∀ (ps : List ProductPrice) (mp : MergedProduct),
      mp ∈ (mergeFetchAll ps).map (fun e => e.2) →
      mp.prices ≠ [] ∧ cheapest_entry mp.prices ∈ mp.prices) ∧
    (∀ (ps : List ProductPrice) (mp : MergedProduct),
      mp ∈ (mergeSimple ps).map (fun e => e.2) →
      mp.prices ≠ [] ∧ cheapest_entry mp.prices ∈ mp.prices) ∧
    (∀ (cps : List (String × List ProductPrice)) (mp : MergedProduct),
      mp ∈ merge_products_by_barcode cps →
      mp.prices ≠ [] ∧ cheapest_entry mp.prices ∈ mp.prices) := by
  have base : ∀ kv ∈ ([] : List (String × MergedProduct)), kv.2.prices ≠ [] := by
    intro kv h
    exact absurd h (List.not_mem_nil kv)
  have main : ∀ (upd : PriceEntry → MergedProduct → MergedProduct)
      (seed : ProductPrice → MergedProduct),
      (upd = addPriceIfAbsent ∨ upd = addPriceAlways) →
      (∀ p : ProductPrice, (seed p).prices = []) →
      ∀ (ps : List ProductPrice) (kv : String × MergedProduct),
        kv ∈ ps.foldl (mergeStep upd seed) [] → kv.2.prices ≠ [] := by
    intro upd seed hupd hseed ps kv hkv
    refine merge_fold_invariant upd seed (fun mp => mp.prices ≠ []) ?_ ?_ ps [] base kv hkv
    · intro e mp h
      rcases hupd with h' | h' <;> subst h'
      · exact prices_ne_nil_addPriceIfAbsent e mp h
      · exact prices_ne_nil_addPriceAlways e mp h
    · intro p
      exact prices_ne_nil_seed upd _ _ (hseed p) hupd
  refine ⟨?_, ?_, ?_⟩
  · intro ps mp hmp
    obtain ⟨kv, hkv, hkv2⟩ := List.mem_map.mp hmp
    have h := hkv2 ▸ main addPriceIfAbsent seedFetchAll (Or.inl rfl) (fun _ => rfl) ps kv hkv
    exact ⟨h, cheapest_entry_mem _ h⟩
  · intro ps mp hmp
    obtain ⟨kv, hkv, hkv2⟩ := List.mem_map.mp hmp
    have h := hkv2 ▸ main addPriceIfAbsent seedSimple (Or.inl rfl) (fun _ => rfl) ps kv hkv
    exact ⟨h, cheapest_entry_mem _ h⟩
  · intro cps mp hmp
    unfold merge_products_by_barcode at hmp
    rw [List.mem_insertionSort] at hmp
    obtain ⟨kv, hkv, hkv2⟩ := List.mem_map.mp hmp
    have h := hkv2 ▸ main addPriceAlways seedKaggle (Or.inr rfl) (fun _ => rfl)
      ((cps.map (fun c : String × List ProductPrice => c.2)).flatten) kv hkv
    exact ⟨h, cheapest_entry_mem _ h⟩

/-- C10 witness: in the two-chain example the merged entry indeed has a
non-empty price list whose cheapest entry is a member. -/
theorem c10_merge_output_prices_nonempty_witness :
    mergedMilk ∈ (mergeFetchAll [recMilkA, recMilkB]).map (fun e => e.2) ∧
      mergedMilk.prices ≠ [] ∧ cheapest_entry mergedMilk.prices ∈ mergedMilk.prices := by
  have heq : (mergeFetchAll [recMilkA, recMilkB]).map (fun e => e.2) = [mergedMilk] := by
    with_unfolding_all rfl
  have hmem : mergedMilk ∈ (mergeFetchAll [recMilkA, recMilkB]).map (fun e => e.2) := by
    rw [heq]
    exact List.mem_singleton.mpr rfl
  exact ⟨hmem, c10_merge_output_prices_nonempty.1 [recMilkA, recMilkB] mergedMilk hmem⟩

/-- C7: first-seen-wins for ancillary fields — for the merges of
fetch_all_chains.main and import_kaggle.merge_products_by_barcode, whenever `p`
is the first record in processing order carrying its barcode, the merged
entry's name, manufacturer and category are exactly `p`'s; later records (from
the same or other chains) never update them. -/
theorem c7_first_seen_wins_ancillary :
    (∀ (ps : List ProductPrice) (p : ProductPrice),
      ps.find? (fun q => q.barcode == p.barcode) = some p →
      ∃ mp, alistLookup (mergeFetchAll ps) p.barcode = some mp ∧
        mp.name = p.name ∧ mp.manufacturer = p.manufacturer ∧
        mp.category = p.category) ∧
    (∀ (ps : List ProductPrice) (p : ProductPrice),
      ps.find? (fun q => q.barcode == p.barcode) = some p →
      ∃ mp, alistLookup (merge_products_map ps) p.barcode = some mp ∧
        mp.name = p.name ∧ mp.manufacturer = p.manufacturer ∧
        mp.category = p.category) := by
  constructor
  · intro ps p hfind
    obtain ⟨mp, h1, h2⟩ := mergeFold_lookup_first addPriceIfAbsent seedFetchAll
      ancil_addPriceIfAbsent ps [] p.barcode p rfl hfind
    have h2' : (mp.name, mp.manufacturer, mp.category) =
        (p.name, p.manufacturer, p.category) := h2
    rw [Prod.mk.injEq, Prod.mk.injEq] at h2'
    exact ⟨mp, h1, h2'.1, h2'.2.1, h2'.2.2⟩
  · intro ps p hfind
    obtain ⟨mp, h1, h2⟩ := mergeFold_lookup_first addPriceAlways seedKaggle
      ancil_addPriceAlways ps [] p.barcode p rfl hfind
    have h2' : (mp.name, mp.manufacturer, mp.category) =
        (p.name, p.manufacturer, p.category) := h2
    rw [Prod.mk.injEq, Prod.mk.injEq] at h2'
    exact ⟨mp, h1, h2'.1, h2'.2.1, h2'.2.2⟩

/-- C7 witness: `recMilkA` (name "Milk") precedes `recMilkB` (name "Milk2",
same barcode, another chain); the merged entry keeps "Milk" and chain A's
manufacturer. -/
theorem c7_first_seen_wins_ancillary_witness :
    [recMilkA, recMilkB].find? (fun q => q.barcode == recMilkA.barcode) = some recMilkA ∧
    ∃ mp, alistLookup (mergeFetchAll [recMilkA, recMilkB]) recMilkA.barcode = some mp ∧
      mp.name = recMilkA.name ∧ mp.manufacturer = recMilkA.manufacturer ∧
      mp.category = recMilkA.category := by
  have hfind : [recMilkA, recMilkB].find? (fun q => q.barcode == recMilkA.barcode) =
      some recMilkA := by
    with_unfolding_all rfl
  exact ⟨hfind, c7_first_seen_wins_ancillary.1 [recMilkA, recMilkB] recMilkA hfind⟩

/-- C8: the image URL is a deterministic function of the barcode — for
barcodes of length at least 12 it embeds the slices `[:3]`, `[3:6]`, `[6:9]`,
`[9:]` (for "7290000066318": 729/000/006/6318); shorter barcodes get no URL. -/
theorem c8_image_url_derivation :
    image_url "7290000066318" =
      some "https://images.openfoodfacts.org/images/products/729/000/006/6318/front_he.400.jpg" ∧
    (∀ b : String, b.length < 12 → image_url b = none) ∧
    (∀ b : String, 12 ≤ b.length →
      image_url b = some ("https://images.openfoodfacts.org/images/products/"
        ++ strSlice b 0 3 ++ "/" ++ strSlice b 3 6 ++ "/" ++ strSlice b 6 9 ++ "/"
        ++ strSliceFrom b 9 ++ "/front_he.400.jpg")) := by
  refine ⟨by decide, ?_, ?_⟩
  · intro b h
    unfold image_url
    rw [if_neg (not_le.mpr h)]
  · intro b h
    unfold image_url
    rw [if_pos h]

/-- C8 witness: both branches at concrete barcodes. -/
theorem c8_image_url_derivation_witness :
    image_url "729" = none ∧
    image_url "7290000066318" = some ("https://images.openfoodfacts.org/images/products/"
      ++ strSlice "7290000066318" 0 3 ++ "/" ++ strSlice "7290000066318" 3 6 ++ "/"
      ++ strSlice "7290000066318" 6 9 ++ "/" ++ strSliceFrom "7290000066318" 9
      ++ "/front_he.400.jpg") :=
  ⟨c8_image_url_derivation.2.1 "729" (by decide),
   c8_image_url_derivation.2.2 "7290000066318" (by decide)⟩

/-- C9: the persistence projection's cheapestPrice/cheapestChain are the price
and chain display name of the minimum-by-price entry of the product's price
list (Python `min`, first minimum on ties), and the empty price list yields
price 0 with an empty chain name, with no error. -/
theorem c9_cheapest_projection :
    (∀ prices : List PriceEntry, prices ≠ [] →
      cheapest_entry prices ∈ prices ∧
        ∀ q ∈ prices, (cheapest_entry prices).price ≤ q.price) ∧
    cheapest_entry [] = { chain := "", chainName := "", price := 0 } ∧
    (∀ mp : MergedProduct,
      (persist_doc mp).cheapestPrice = (cheapest_entry mp.prices).price ∧
      (persist_doc mp).cheapestChain = (cheapest_entry mp.prices).chainName) :=
  ⟨fun prices h => ⟨cheapest_entry_mem prices h, fun q hq => cheapest_entry_le prices q hq⟩,
   rfl, fun _ => ⟨rfl, rfl⟩⟩

/-- C9 witness: on the two-entry example list the cheapest entry is chain B at
4.5. -/
theorem c9_cheapest_projection_witness :
    (cheapest_entry mergedMilk.prices ∈ mergedMilk.prices ∧
      ∀ q ∈ mergedMilk.prices, (cheapest_entry mergedMilk.prices).price ≤ q.price) ∧
    (cheapest_entry mergedMilk.prices).price = 4.5 ∧
    (cheapest_entry mergedMilk.prices).chainName = "B" := by
  refine ⟨c9_cheapest_projection.1 mergedMilk.prices (by decide), ?_, ?_⟩
  · with_unfolding_all rfl
  · with_unfolding_all rfl

/-- C4: each Record Normalizer accepts a raw record and emits a ProductPrice
iff the extracted barcode is non-empty AND the extracted name is non-empty AND
the price parses to a value strictly greater than 0; otherwise the record is
dropped (`none`), never an error.  Stated for fetch_all_chains.parse_xml_file,
import_kaggle.parse_price_csv and scrape_simple.parse_xml. -/
theorem c4_validity_rule :
    (∀ (cid cn : String) (item : XmlItem),
      (parse_item_fetch_all cid cn item).isSome ↔
        ((∃ b, barcode_fa item = some b ∧ b ≠ "") ∧
         (∃ s, name_fa item = some s ∧ s ≠ "") ∧
         (∃ q, price_fa item = some q ∧ 0 < q))) ∧
    (∀ (ck : String) (row : List (String × String)),
      (parse_row_kaggle ck row).isSome ↔
        (barcode_kg row ≠ "" ∧ name_kg row ≠ "" ∧
         ∃ q, price_parse (price_str_kg row) = Except.ok q ∧ 0 < q)) ∧
    (∀ (cid cn : String) (item : XmlItem),
      (parse_item_simple cid cn item).isSome ↔
        ((∃ b, barcode_ss item = some b ∧ b ≠ "") ∧
         (∃ s, name_ss item = some s ∧ s ≠ "") ∧
         (∃ q, price_ss item = some q ∧ 0 < q))) := by
  refine ⟨?_, ?_, ?_⟩
  · intro cid cn item
    cases hb : barcode_fa item with
    | none => simp [parse_item_fetch_all, hb]
    | some b =>
      cases hn : name_fa item with
      | none => simp [parse_item_fetch_all, hb, hn]
      | some n =>
        cases hp : price_fa item with
        | none => simp [parse_item_fetch_all, hb, hn, hp]
        | some q =>
          by_cases h1 : b = "" <;> by_cases h2 : n = "" <;> by_cases h3 : 0 < q <;>
            simp [parse_item_fetch_all, hb, hn, hp, h1, h2, h3]
  · intro ck row
    cases hp : price_parse (price_str_kg row) with
    | ok q =>
      by_cases h1 : barcode_kg row = "" <;> by_cases h2 : name_kg row = "" <;>
        by_cases h3 : 0 < q <;>
          simp [parse_row_kaggle, price_kg, hp, h1, h2, h3, not_lt, le_of_lt,
            fun h : 0 < q => (not_le.mpr h)]
    | error e =>
      simp [parse_row_kaggle, price_kg, hp]
  · intro cid cn item
    cases hb : barcode_ss item with
    | none => simp [parse_item_simple, hb]
    | some b =>
      cases hn : name_ss item with
      | none => simp [parse_item_simple, hb, hn]
      | some n =>
        cases hp : price_ss item with
        | none => simp [parse_item_simple, hb, hn, hp]
        | some q =>
          by_cases h1 : b = "" <;> by_cases h2 : n = "" <;> by_cases h3 : 0 < q <;>
            simp [parse_item_simple, hb, hn, hp, h1, h2, h3]

theorem spec_extract_raw_cons (item : XmlItem) (t : String) (rest : List String) :
    spec_extract_raw item (t :: rest) =
      match rawText item t with
      | some s => if s = "" then spec_extract_raw item rest else some (pyStrip s)
      | none => spec_extract_raw item rest := by
  unfold spec_extract_raw
  cases hr : rawText item t with
  | none => simp [List.filterMap_cons, hr]
  | some s =>
    by_cases hs : s = ""
    · subst hs
      simp [List.filterMap_cons, hr]
    · simp [List.filterMap_cons, hr, hs]

/-- C6 (amended): the Field Extractor returns the first present value whose RAW
text is non-empty, then trims it — so a whitespace-only value is selected (and
trims to the empty string) rather than skipped; when no alias has non-empty raw
text the result is absence (`none` for the fetch_all_chains loop, `''` for
scrape_prices.get_xml_text), not an error. -/
theorem c6_extractor_first_raw_nonempty :
    (∀ (item : XmlItem) (names : List String),
      extractTag item names = spec_extract_raw item names) ∧
    (∀ (item : XmlItem) (names : List String),
      get_xml_text item names = (spec_extract_raw item names).getD "") := by
  constructor
  · intro item names
    induction names with
    | nil => rfl
    | cons t rest ih =>
      rw [spec_extract_raw_cons]
      unfold extractTag
      cases hr : rawText item t with
      | none => exact ih
      | some s =>
        by_cases hs : s = ""
        · simp [hs, ih]
        · simp [hs]
  · intro item names
    induction names with
    | nil => rfl
    | cons t rest ih =>
      rw [spec_extract_raw_cons]
      unfold get_xml_text
      cases hr : rawText item t with
      | none => exact ih
      | some s =>
        by_cases hs : s = ""
        · simp [hs, ih]
        · simp [hs]

/-- An item whose first name alias holds whitespace-only text while a later
alias holds usable text. -/
def itemWS : XmlItem := ⟨[("ItemName", some " "), ("ProductName", some "X")]⟩

/-- C6 counterexample: on `itemWS` the claim's reading ("first present value
whose trimmed text is non-empty") would return "X", but get_xml_text returns
`""` (it selects the whitespace-only `ItemName` and trims it), and the
fetch_all_chains loop likewise yields `some ""` instead of skipping to a later
alias. -/
theorem c6_counterexample_whitespace_not_skipped :
    get_xml_text itemWS ["ItemName", "ProductName", "name", "ItemNm"] = "" ∧
    spec_extract_trimmed itemWS ["ItemName", "ProductName", "name", "ItemNm"] = some "X" ∧
    extractTag itemWS ["ItemName", "ItemNm", "ProductName", "name"] = some "" := by
  refine ⟨by decide, by decide, by decide⟩

/-! Items and rows pinning the alias priority orders for C5.  The child order
inside each record is scrambled so that the result shows the alias-list
priority, not document order. -/

def itemAB : XmlItem := ⟨[("Barcode", some "B"), ("ItemCode", some "A")]⟩

def rowAB : List (String × String) := [("Barcode", "B"), ("ItemCode", "A")]

def itemN1 : XmlItem :=
  ⟨[("name", some "c"), ("ProductName", some "b"), ("ItemNm", some "d"), ("ItemName", some "a")]⟩

def itemN2 : XmlItem :=
  ⟨[("name", some "c"), ("ProductName", some "b"), ("ItemNm", some "d")]⟩

def itemN3 : XmlItem := ⟨[("name", some "c"), ("ItemNm", some "d")]⟩

def itemN4 : XmlItem := ⟨[("ItemNm", some "d")]⟩

def itemN5 : XmlItem := ⟨[("name", some "c"), ("ProductName", some "b")]⟩

def itemN6 : XmlItem := ⟨[("name", some "c")]⟩

def rowN1 : List (String × String) :=
  [("product_name", "z"), ("ProductName", "y"), ("item_name", "x"), ("ItemName", "w")]

def rowN2 : List (String × String) :=
  [("product_name", "z"), ("ProductName", "y"), ("item_name", "x")]

def rowN3 : List (String × String) := [("product_name", "z"), ("ProductName", "y")]

def rowN4 : List (String × String) := [("product_name", "z")]

/-- C5 (amended): `ItemCode` has top priority for the barcode in all four
parsers (a record with both `ItemCode=A` and `Barcode=B` yields `A`), but the
name aliases are consulted in per-parser orders, none of which is the full
six-alias order of the spec table: fetch_all_chains uses ItemName, ItemNm,
ProductName, name; scrape_prices uses ItemName, ProductName, name, ItemNm;
scrape_simple uses ItemName, ItemNm, ProductName; import_kaggle uses ItemName,
item_name, ProductName, product_name. -/
theorem c5_alias_priority_orders :
    (barcode_fa itemAB = some "A" ∧ barcode_ss itemAB = some "A" ∧
      barcode_sp itemAB = "A" ∧ barcode_kg rowAB = "A") ∧
    (name_sp itemN1 = "a" ∧ name_sp itemN2 = "b" ∧ name_sp itemN3 = "c" ∧
      name_sp itemN4 = "d") ∧
    (name_fa itemN1 = some "a" ∧ name_fa itemN2 = some "d" ∧
      name_fa itemN5 = some "b" ∧ name_fa itemN6 = some "c") ∧
    (name_ss itemN1 = some "a" ∧ name_ss itemN2 = some "d" ∧
      name_ss itemN5 = some "b" ∧ name_ss itemN6 = none) ∧
    (name_kg rowN1 = "w" ∧ name_kg rowN2 = "x" ∧ name_kg rowN3 = "y" ∧
      name_kg rowN4 = "z") := by
  refine ⟨⟨by decide, by decide, by decide, by decide⟩,
    ⟨by decide, by decide, by decide, by decide⟩,
    ⟨by decide, by decide, by decide, by decide⟩,
    ⟨by decide, by decide, by decide, by decide⟩,
    ⟨by decide, by decide, by decide, by decide⟩⟩

/-- An item carrying both an `ItemNm` and a `ProductName` name. -/
def itemNmPn : XmlItem := ⟨[("ItemNm", some "X"), ("ProductName", some "Y")]⟩

/-- C5 counterexample: under the claimed order (ItemName, ItemNm, ProductName,
name, item_name, product_name) the name of `itemNmPn` would be "X" (ItemNm
outranks ProductName), but scrape_prices consults ProductName before ItemNm and
returns "Y". -/
theorem c5_counterexample_scrape_prices_name_order :
    name_sp itemNmPn = "Y" ∧ ("Y" : String) ≠ "X" := by
  exact ⟨by decide, by decide⟩

/-- A valid item whose price text uses the comma decimal separator. -/
def itemMilkComma : XmlItem :=
  ⟨[("ItemCode", some "7290000000001"), ("ItemName", some "Milk"),
    ("ItemPrice", some "12,50")]⟩

/-- A valid item whose price text is not numeric. -/
def itemMilkAbc : XmlItem :=
  ⟨[("ItemCode", some "7290000000001"), ("ItemName", some "Milk"),
    ("ItemPrice", some "abc")]⟩

/-- C2 (amended): in fetch_all_chains.parse_xml_file and
scrape_simple.parse_xml the price text is comma-normalized and parsed
("12,50" parses to 12.5), a parse failure leaves the price absent so the
record is rejected, and the per-record price step never lets the ValueError
escape.  (The claim is false for scrape_prices.parse_xml_files_directly — see
the counterexample: there the parse has no comma replacement and no per-record
handler.) -/
theorem c2_price_parsing_total :
    price_parse "12,50" = Except.ok (12.5 : ℚ) ∧
    price_parse "abc" = Except.error "ValueError" ∧
    (∀ item : XmlItem, ∃ r, price_fa_try item = Except.ok r) ∧
    (∀ item : XmlItem, ∃ r, price_ss_try item = Except.ok r) ∧
    (∀ (cid cn : String) (item : XmlItem), price_fa item = none →
      parse_item_fetch_all cid cn item = none) ∧
    (∀ (cid cn : String) (item : XmlItem), price_ss item = none →
      parse_item_simple cid cn item = none) ∧
    (parse_item_fetch_all "shufersal" "שופרסל" itemMilkComma).map ProductPrice.price =
      some (12.5 : ℚ) ∧
    parse_item_fetch_all "shufersal" "שופרסל" itemMilkAbc = none := by
  refine ⟨by with_unfolding_all rfl, by with_unfolding_all rfl, ?_, ?_, ?_, ?_,
    by with_unfolding_all rfl, by with_unfolding_all rfl⟩
  · intro item
    cases hpt : price_text_fa item with
    | none => exact ⟨none, by simp [price_fa_try, hpt]⟩
    | some s =>
      cases hpp : price_parse s with
      | ok q => exact ⟨some q, by simp [price_fa_try, hpt, hpp]⟩
      | error e => exact ⟨none, by simp [price_fa_try, hpt, hpp]⟩
  · intro item
    cases hpt : price_text_ss item with
    | none => exact ⟨none, by simp [price_ss_try, hpt]⟩
    | some s =>
      cases hpp : price_parse s with
      | ok q => exact ⟨some q, by simp [price_ss_try, hpt, hpp]⟩
      | error e => exact ⟨none, by simp [price_ss_try, hpt, hpp]⟩
  · intro cid cn item h
    cases hb : barcode_fa item <;> cases hn : name_fa item <;>
      simp [parse_item_fetch_all, hb, hn, h]
  · intro cid cn item h
    cases hb : barcode_ss item <;> cases hn : name_ss item <;>
      simp [parse_item_simple, hb, hn, h]

/-- C2 witness: the rejected-record implications at the concrete item with
price text "abc". -/
theorem c2_price_parsing_total_witness :
    price_fa itemMilkAbc = none ∧
    parse_item_fetch_all "c" "n" itemMilkAbc = none ∧
    price_ss itemMilkAbc = none ∧
    parse_item_simple "c" "n" itemMilkAbc = none := by
  have h1 : price_fa itemMilkAbc = none := by with_unfolding_all rfl
  have h2 : price_ss itemMilkAbc = none := by with_unfolding_all rfl
  exact ⟨h1, c2_price_parsing_total.2.2.2.2.1 "c" "n" itemMilkAbc h1,
    h2, c2_price_parsing_total.2.2.2.2.2.1 "c" "n" itemMilkAbc h2⟩

/-- C2 counterexample: scrape_prices record normalization passes "12,50" to
`float()` with no comma replacement and no per-record handler, so instead of
parsing to 12.5 it raises ValueError (aborting the rest of the file). -/
theorem c2_counterexample_scrape_prices_comma_raises :
    price_text_sp itemMilkComma = "12,50" ∧
    parse_item_scrape_prices "shufersal" itemMilkComma = Except.error "ValueError" := by
  exact ⟨by decide, by with_unfolding_all rfl⟩

theorem scrape_chain_failure_shape (c : String) (o : Except String (List SPProduct))
    (h : (scrape_chain c o).success = false) :
    (scrape_chain c o).products_count = none ∧ (scrape_chain c o).products = [] := by
  unfold scrape_chain at h ⊢
  cases hf : CHAIN_TO_ENUM.find? (fun e => e.1 == pyLower c) with
  | none => simp [hf]
  | some v =>
    cases o with
    | error e => simp [hf]
    | ok ps =>
      rw [hf] at h
      simp at h

/-- C3 (amended): scrape_prices.scrape_multiple_chains returns a well-formed
result on total failure — when every requested chain fails, `success` is false,
the total product count is 0 and every per-chain entry carries an empty product
list; nothing is raised to the caller (the result type has no error channel).
(The claim is false for fetch_all_chains.main, whose `success` field is the
hardcoded literal `True` — see the counterexample.) -/
theorem c3_total_failure_result :
    ∀ inputs : List (String × Except String (List SPProduct)),
      inputs ≠ [] →
      (∀ c ∈ inputs, (scrape_chain c.1 c.2).success = false) →
      (scrape_multiple_chains inputs).success = false ∧
      (scrape_multiple_chains inputs).total_products = 0 ∧
      ∀ r ∈ (scrape_multiple_chains inputs).chains, r.2.products = [] := by
  intro inputs hne hall
  refine ⟨?_, ?_, ?_⟩
  · unfold scrape_multiple_chains
    cases inputs with
    | nil => exact absurd rfl hne
    | cons c cs =>
      have hc := hall c (List.mem_cons_self c cs)
      simp [hc]
  · unfold scrape_multiple_chains
    refine List.sum_eq_zero ?_
    intro x hx
    rw [List.map_map] at hx
    obtain ⟨c, hc, hcx⟩ := List.mem_map.mp hx
    rw [← hcx]
    have := (scrape_chain_failure_shape c.1 c.2 (hall c hc)).1
    simp [this]
  · intro r hr
    unfold scrape_multiple_chains at hr
    obtain ⟨c, hc, hcr⟩ := List.mem_map.mp hr
    rw [← hcr]
    exact (scrape_chain_failure_shape c.1 c.2 (hall c hc)).2

/-- An all-failing batch: one unknown chain id and one chain whose retrieval
raises. -/
def c3Inputs : List (String × Except String (List SPProduct)) :=
  [("nosuchchain", Except.ok []), ("shufersal", Except.error "boom")]

/-- C3 witness: the amended theorem applied to the all-failing batch. -/
theorem c3_total_failure_result_witness :
    c3Inputs ≠ [] ∧ (∀ c ∈ c3Inputs, (scrape_chain c.1 c.2).success = false) ∧
    ((scrape_multiple_chains c3Inputs).success = false ∧
      (scrape_multiple_chains c3Inputs).total_products = 0 ∧
      ∀ r ∈ (scrape_multiple_chains c3Inputs).chains, r.2.products = []) := by
  have h1 : c3Inputs ≠ [] := by decide
  have h2 : ∀ c ∈ c3Inputs, (scrape_chain c.1 c.2).success = false := by decide
  exact ⟨h1, h2, c3_total_failure_result c3Inputs h1 h2⟩

/-- C3 counterexample: fetch_all_chains.main builds its batch result with the
literal `success: True`; on a run where every chain yielded zero products the
result still reports success (with an empty product list), not failure. -/
theorem c3_counterexample_fetch_all_success_hardcoded :
    (main_result_fetch_all [("shufersal", []), ("rami_levy", [])]).success = true ∧
    (main_result_fetch_all [("shufersal", []), ("rami_levy", [])]).totalProducts = 0 ∧
    (main_result_fetch_all [("shufersal", []), ("rami_levy", [])]).products = [] ∧
    (main_result_fetch_all [("shufersal", []), ("rami_levy", [])]).chainsSummary =
      [("shufersal", 0), ("rami_levy", 0)] := by
  refine ⟨rfl, rfl, rfl, rfl⟩

end BudgetManager
